import Mathlib

/-!
Verification of the staged build pipeline and the dependency-aware artifact
tag / reuse policy of the component image builder
(`src/base_image_builder.py`, plus the staged-pipeline modules known only
through their tests under `dbd/test/`).

The embedding is shallow: Python dictionaries become association lists,
the Docker / network / filesystem side effects become an explicit trace of
actions, and the in-place mutation of the builder's dependency list becomes
explicit state passing (the builder value after the call is returned next to
the result).
-/

namespace Dbd

/-- Embeds `DistType` from `component_builder`: the two input modes. -/
inductive DistType
| release
| snapshot
deriving DecidableEq, Repr

/-- Embeds `ComponentConfig`: the resolved descriptor of one built artifact. -/
structure ComponentConfig where
  dist_type : DistType
  version : String
  image_name : String
deriving DecidableEq, Repr

/-- Embeds `Configuration`: the process-wide build context.  The Python
`components` dictionary (component name to its already-built
`ComponentConfig`) is embedded as an association list queried with
`List.lookup`. -/
structure Configuration where
  repository : String
  timestamp : String
  components : List (String × ComponentConfig)
  resource_path : String
deriving DecidableEq, Repr

/-- Embeds the state of a `BaseImageBuilder` instance: `_name`,
`_dependencies` (mutable: `_get_image_name` sorts it in place) and
`_version_from_image_name`, the injected callable turning an image name back
into a version string.  `_url_template` and the Docker client only feed the
side-effecting helpers and are not part of the tag computation. -/
structure BaseImageBuilder where
  name : String
  dependencies : List String
  version_from_image_name : String → String

/-- The errors the tag computation can signal: the Python `KeyError` raised
by `built_config.components[dependency]` when a declared dependency has no
entry (the spec's `MissingDependencyError`), and the `ValueError` raised when
release mode is requested with a `None` version. -/
inductive BuildError
| missingDependency (dep : String)
| versionNoneInReleaseMode
deriving DecidableEq, Repr

/-- Lexicographic comparison of character lists by code point: the order
Python uses to compare strings. -/
def charListLe : List Char → List Char → Bool
  | [], _ => true
  | _ :: _, [] => false
  | a :: as, b :: bs => if a < b then true else if b < a then false else charListLe as bs

/-- Embeds Python string comparison: lexicographic by code point. -/
def stringLe (a b : String) : Bool :=
  charListLe a.data b.data

/-- The ordering relation `list.sort()` sorts by, as a `Prop`. -/
def strLeRel (a b : String) : Prop :=
  stringLe a b = true

instance : DecidableRel strLeRel :=
  fun a b => inferInstanceAs (Decidable (stringLe a b = true))

/-- Embeds `list.sort()` on Python strings: lexicographic sorting by code
point. -/
def sortStrings (l : List String) : List String :=
  l.insertionSort strLeRel

/-- The suffix of a character list after the last occurrence of `c`, the
whole list when `c` does not occur.  This is what Python's
`s.split(c)[-1]` computes. -/
def afterLastChar (c : Char) (l : List Char) : List Char :=
  (l.reverse.takeWhile (fun x => x ≠ c)).reverse

/-- Embeds `image_name.split(":")[-1]` (line 110): the suffix of the string
after the last colon, the whole string when it has no colon.  Python's
`split` never returns an empty list, so the `[-1]` access cannot fail. -/
def tagSuffix (s : String) : String :=
  String.mk (afterLastChar ':' s.data)

/-- Embeds the loop of lines 108-112: for each dependency in order, look its
`ComponentConfig` up in `built_config.components` and append the dependency
name concatenated with the tag suffix of its image name; a missing entry
raises (Python `KeyError`). -/
def depsJoinList (components : List (String × ComponentConfig)) :
    List String → Except BuildError (List String)
  | [] => Except.ok []
  | dep :: rest =>
    match components.lookup dep with
    | none => Except.error (BuildError.missingDependency dep)
    | some cc =>
      (depsJoinList components rest).map
        (fun tl => (dep ++ tagSuffix cc.image_name) :: tl)

/-- Embeds lines 94-102 of `_get_image_name`: the `component_tag` local.
RELEASE uses the literal version (raising when it is `None`); SNAPSHOT uses
`"snapshot_" + built_config.timestamp`. -/
def componentTag (dist_type : DistType) (version : Option String)
    (built_config : Configuration) : Except BuildError String :=
  match dist_type with
  | DistType.release =>
    match version with
    | none => Except.error BuildError.versionNoneInReleaseMode
    | some v => Except.ok v
  | DistType.snapshot => Except.ok ("snapshot_" ++ built_config.timestamp)

/-- Embeds `BaseImageBuilder._get_image_name` (lines 88-118).  The template
is `repository/component:component_tag_dependencies_tag`.  Line 105-106
fetches `self._dependencies` through `self.dependencies()` (which returns the
list itself, not a copy) and sorts it in place, so the builder returned next
to the result carries the sorted list; the `ValueError` branch for a `None`
release version fires before the sort and leaves the list untouched. -/
def getImageName (b : BaseImageBuilder) (dist_type : DistType)
    (version : Option String) (built_config : Configuration) :
    Except BuildError String × BaseImageBuilder :=
  match componentTag dist_type version built_config with
  | Except.error e => (Except.error e, b)
  | Except.ok ctag =>
    let sorted := sortStrings b.dependencies
    let b' : BaseImageBuilder := ⟨b.name, sorted, b.version_from_image_name⟩
    match depsJoinList built_config.components sorted with
    | Except.error e => (Except.error e, b')
    | Except.ok lst =>
      (Except.ok (built_config.repository ++ "/" ++ b.name ++ ":" ++ ctag
        ++ "_" ++ String.intercalate "_" lst), b')

/-- The side effects a call to `build` can perform, in order: downloading
the release tarball (`_prepare_tarfile_release`), packing the snapshot
directory (`_prepare_tarfile_snapshot`), and invoking the Docker build
(`_build_docker_image`). -/
inductive Action
| prepareTarfileRelease (version : String)
| prepareTarfileSnapshot (path : String)
| buildDockerImage (image_name : String)
deriving DecidableEq, Repr

/-- What one call to `build` produces: the returned `ComponentConfig` (or
the propagated error), the builder state after the call, the trace of side
effects, and whether the reuse branch of lines 44-45 was taken. -/
structure BuildOutcome where
  result : Except BuildError ComponentConfig
  builder : BaseImageBuilder
  actions : List Action
  reused : Bool

/-- Embeds `BaseImageBuilder.build` (lines 31-65).  `utils.dist_type_and_arg`
is not under `src/`; `build` is therefore embedded from its resolved output,
the pair of the dist type and its argument (the version string for RELEASE,
the snapshot path for SNAPSHOT).  `utils.image_exists_locally` is the
injected existence-check capability, embedded as the `image_exists`
parameter.  The `ValueError` branch for an unexpected `DistType` is
unreachable because `DistType` has exactly the two constructors.  The scratch
directory handling (`utils.TmpDirHandler`) is a context manager whose
cleanup runs on every exit path and is not part of the observable outcome
modelled here. -/
def build (b : BaseImageBuilder) (image_exists : String → Bool)
    (dist_type : DistType) (argument : String) (built_config : Configuration)
    (force_rebuild : Bool) : BuildOutcome :=
  let version? : Option String :=
    if dist_type = DistType.release then some argument else none
  match getImageName b dist_type version? built_config with
  | (Except.error e, b') => ⟨Except.error e, b', [], false⟩
  | (Except.ok image_name, b') =>
    let reuse := !force_rebuild && (dist_type == DistType.release)
      && image_exists image_name
    let version : String :=
      if dist_type = DistType.release then argument
      else b.version_from_image_name image_name
    if reuse then
      ⟨Except.ok ⟨dist_type, version, image_name⟩, b', [], true⟩
    else
      let prep : Action :=
        match dist_type with
        | DistType.release => Action.prepareTarfileRelease argument
        | DistType.snapshot => Action.prepareTarfileSnapshot argument
      ⟨Except.ok ⟨dist_type, version, image_name⟩, b',
        [prep, Action.buildDockerImage image_name], false⟩

theorem charListLe_total : ∀ a b : List Char,
    charListLe a b = true ∨ charListLe b a = true
  | [], [] => Or.inl rfl
  | [], _ :: _ => Or.inl rfl
  | _ :: _, [] => Or.inr rfl
  | a :: as, b :: bs => by
    rcases lt_trichotomy a b with h | h | h
    · left
      simp [charListLe, h]
    · subst h
      simpa [charListLe] using charListLe_total as bs
    · right
      simp [charListLe, h]

theorem charListLe_trans : ∀ a b c : List Char,
    charListLe a b = true → charListLe b c = true → charListLe a c = true
  | [], _, _, _, _ => rfl
  | _ :: _, [], _, h1, _ => by simp [charListLe] at h1
  | _ :: _, _ :: _, [], _, h2 => by simp [charListLe] at h2
  | a :: as, b :: bs, c :: cs, h1, h2 => by
    rcases lt_trichotomy a b with hab | hab | hab
    · rcases lt_trichotomy b c with hbc | hbc | hbc
      · simp [charListLe, lt_trans hab hbc]
      · subst hbc
        simp [charListLe, hab]
      · rw [charListLe, if_neg (not_lt_of_lt hbc), if_pos hbc] at h2
        exact absurd h2 (by simp)
    · subst hab
      rw [charListLe, if_neg (lt_irrefl a)] at h1
      simp only [if_neg (lt_irrefl a)] at h1
      rcases lt_trichotomy a c with hac | hac | hac
      · simp [charListLe, hac]
      · subst hac
        rw [charListLe, if_neg (lt_irrefl a), if_neg (lt_irrefl a)] at h2 ⊢
        exact charListLe_trans as bs cs h1 h2
      · rw [charListLe, if_neg (not_lt_of_lt hac), if_pos hac] at h2
        exact absurd h2 (by simp)
    · rw [charListLe, if_neg (not_lt_of_lt hab), if_pos hab] at h1
      exact absurd h1 (by simp)

theorem charListLe_antisymm : ∀ a b : List Char,
    charListLe a b = true → charListLe b a = true → a = b
  | [], [], _, _ => rfl
  | [], _ :: _, _, h2 => by simp [charListLe] at h2
  | _ :: _, [], h1, _ => by simp [charListLe] at h1
  | a :: as, b :: bs, h1, h2 => by
    rcases lt_trichotomy a b with hab | hab | hab
    · rw [charListLe, if_neg (not_lt_of_lt hab), if_pos hab] at h2
      exact absurd h2 (by simp)
    · subst hab
      rw [charListLe, if_neg (lt_irrefl a), if_neg (lt_irrefl a)] at h1 h2
      rw [charListLe_antisymm as bs h1 h2]
    · rw [charListLe, if_neg (not_lt_of_lt hab), if_pos hab] at h1
      exact absurd h1 (by simp)

instance : IsTotal String strLeRel :=
  ⟨fun a b => charListLe_total a.data b.data⟩

instance : IsTrans String strLeRel :=
  ⟨fun a b c => charListLe_trans a.data b.data c.data⟩

instance : IsAntisymm String strLeRel :=
  ⟨fun a b h1 h2 => String.ext (charListLe_antisymm a.data b.data h1 h2)⟩

theorem sortStrings_perm (l : List String) : (sortStrings l).Perm l :=
  List.perm_insertionSort strLeRel l

theorem sortStrings_sorted (l : List String) :
    (sortStrings l).Sorted strLeRel :=
  List.sorted_insertionSort strLeRel l

theorem sortStrings_eq_of_perm {l1 l2 : List String} (h : l1.Perm l2) :
    sortStrings l1 = sortStrings l2 :=
  List.eq_of_perm_of_sorted
    ((sortStrings_perm l1).trans (h.trans (sortStrings_perm l2).symm))
    (sortStrings_sorted l1) (sortStrings_sorted l2)

theorem takeWhile_all {α : Type} (p : α → Bool) :
    ∀ (l : List α), (∀ x ∈ l, p x = true) → l.takeWhile p = l
  | [], _ => rfl
  | a :: l, h => by
    have ha : p a = true := h a (List.mem_cons_self a l)
    simp only [List.takeWhile_cons, ha, if_true]
    rw [takeWhile_all p l (fun x hx => h x (List.mem_cons_of_mem a hx))]

theorem takeWhile_middle {α : Type} (p : α → Bool) :
    ∀ (A : List α) (y : α) (B : List α), (∀ x ∈ A, p x = true) →
      p y = false → (A ++ y :: B).takeWhile p = A
  | [], y, B, _, hy => by simp [List.takeWhile_cons, hy]
  | a :: A, y, B, hA, hy => by
    have ha : p a = true := hA a (List.mem_cons_self a A)
    simp only [List.cons_append, List.takeWhile_cons, ha, if_true]
    rw [takeWhile_middle p A y B (fun x hx => hA x (List.mem_cons_of_mem a hx)) hy]

theorem dropWhile_middle {α : Type} (p : α → Bool) :
    ∀ (A : List α) (y : α) (B : List α), (∀ x ∈ A, p x = true) →
      p y = false → (A ++ y :: B).dropWhile p = y :: B
  | [], y, B, _, hy => by simp [List.dropWhile_cons, hy]
  | a :: A, y, B, hA, hy => by
    have ha : p a = true := hA a (List.mem_cons_self a A)
    simp only [List.cons_append, List.dropWhile_cons, ha, if_true]
    exact dropWhile_middle p A y B (fun x hx => hA x (List.mem_cons_of_mem a hx)) hy

theorem afterLastChar_of_not_mem (c : Char) (l : List Char) (h : c ∉ l) :
    afterLastChar c l = l := by
  unfold afterLastChar
  rw [takeWhile_all _ l.reverse, List.reverse_reverse]
  intro x hx
  simp only [ne_eq, decide_eq_true_eq]
  intro hxc
  exact h (hxc ▸ List.mem_reverse.mp hx)

theorem afterLastChar_append (c : Char) (a b : List Char) (hb : c ∉ b) :
    afterLastChar c (a ++ c :: b) = b := by
  unfold afterLastChar
  have hrev : (a ++ c :: b).reverse = b.reverse ++ c :: a.reverse := by
    simp
  rw [hrev, takeWhile_middle _ b.reverse c a.reverse, List.reverse_reverse]
  · intro x hx
    simp only [ne_eq, decide_eq_true_eq]
    intro hxc
    exact hb (hxc ▸ List.mem_reverse.mp hx)
  · simp

/-- The portion of a character list strictly before the first occurrence of
`c`. -/
def takeBeforeChar (c : Char) (l : List Char) : List Char :=
  l.takeWhile (fun x => x ≠ c)

/-- Everything after the first occurrence of `c`. -/
def dropThroughChar (c : Char) (l : List Char) : List Char :=
  (l.dropWhile (fun x => x ≠ c)).drop 1

/-- The portion of a character list strictly before the second occurrence of
`c`; the whole list when `c` occurs at most once. -/
def takeBeforeSecondChar (c : Char) (l : List Char) : List Char :=
  if c ∈ l then
    takeBeforeChar c l ++ c :: takeBeforeChar c (dropThroughChar c l)
  else l

/-- Modelled from the spec: the concrete `version_from_image_name` callable
injected into `BaseImageBuilder.__init__` is not under `src/`.  The spec
requires the snapshot derivation to be the exact inverse of the identifier
composition: the identifier is
`repository/component:snapshot_TIMESTAMP_dependencies-tag`, so the version
is recovered by taking the part after the last colon and cutting it before
the second underscore, leaving `snapshot_TIMESTAMP`. -/
def snapshotVersionFromImageName (image_name : String) : String :=
  String.mk (takeBeforeSecondChar '_' (afterLastChar ':' image_name.data))

theorem takeBeforeSecondChar_spec (c : Char) (A B C : List Char)
    (hA : c ∉ A) (hB : c ∉ B) :
    takeBeforeSecondChar c (A ++ c :: (B ++ c :: C)) = A ++ c :: B := by
  have hpA : ∀ x ∈ A, (fun x => decide (x ≠ c)) x = true := by
    intro x hx
    simp only [ne_eq, decide_eq_true_eq]
    intro hxc
    exact hA (hxc ▸ hx)
  have hpB : ∀ x ∈ B, (fun x => decide (x ≠ c)) x = true := by
    intro x hx
    simp only [ne_eq, decide_eq_true_eq]
    intro hxc
    exact hB (hxc ▸ hx)
  have hpc : (fun x => decide (x ≠ c)) c = false := by simp
  unfold takeBeforeSecondChar takeBeforeChar dropThroughChar
  rw [if_pos (by simp)]
  rw [takeWhile_middle _ A c (B ++ c :: C) hpA hpc]
  rw [dropWhile_middle _ A c (B ++ c :: C) hpA hpc]
  simp only [List.drop_succ_cons, List.drop_zero]
  rw [takeWhile_middle _ B c C hpB hpc]

/-- A filesystem node: a plain file or a directory. -/
inductive Node
| file
| dir
deriving DecidableEq, Repr

/-- A finite filesystem model: an association list from paths (lists of path
segments) to nodes, queried with `List.lookup`. -/
abbrev FileSystem := List (List String × Node)

/-- Modelled from the spec: `CreateCacheStage` lives in
`default_component_image_builder`, which is not under `src/` — only its
tests in `dbd/test/test_default_component_builder.py` are.  Its precondition
is that `parent_dir` exists and is a directory. -/
def createCachePrecondition (parent_dir : List String) (fs : FileSystem) :
    Bool :=
  fs.lookup parent_dir == some Node.dir

/-- Modelled from the spec: `CreateCacheStage.execute` ensures a `cache`
subdirectory exists under `parent_dir`; a pre-existing cache directory and
its contents are left untouched, never cleared or recreated. -/
def createCacheExecute (parent_dir : List String) (fs : FileSystem) :
    FileSystem :=
  if (fs.lookup (parent_dir ++ ["cache"])).isSome then fs
  else (parent_dir ++ ["cache"], Node.dir) :: fs

/-- Modelled from the spec: the `Stage` contract of the staged pipeline (the
`stage` module is not under `src/`): a unit of work with a side-effect-free
precondition check and an effectful execution step, plus the name the
orchestrator reports when the precondition fails. -/
structure Stage where
  name : String
  precond : FileSystem → Bool
  exec : FileSystem → FileSystem

/-- The name of the first Stage in the list whose precondition fails on the
given filesystem, `none` when every precondition holds. -/
def firstFailingStage (stages : List Stage) (fs : FileSystem) :
    Option String :=
  match stages with
  | [] => none
  | s :: rest =>
    if s.precond fs then firstFailingStage rest fs else some s.name

/-- Runs every Stage's `execute` strictly in order, threading the
filesystem, and records the names of the executed Stages in order. -/
def execStages (stages : List Stage) (fs : FileSystem) :
    FileSystem × List String :=
  match stages with
  | [] => (fs, [])
  | s :: rest =>
    let next := execStages rest (s.exec fs)
    (next.1, s.name :: next.2)

/-- The outcome of the rebuild path: either a `PreconditionError` naming the
failing Stage or the final filesystem, the names of the Stages whose
`execute` ran, and whether the scratch directory was released. -/
structure StagedOutcome where
  result : Except String FileSystem
  executed : List String
  scratchReleased : Bool

/-- Modelled from the spec: the rebuild path of the orchestrator
(`DefaultComponentImageBuilder`, not under `src/`): acquire a scoped scratch
directory, check every Stage's precondition up front — if any is false,
abort the whole build with a `PreconditionError` naming the failing Stage
and release the scratch directory — otherwise execute Stages strictly in
order, releasing the scratch directory on every exit path. -/
def runStagedBuild (stages : List Stage) (fs : FileSystem) : StagedOutcome :=
  match firstFailingStage stages fs with
  | some n => ⟨Except.error n, [], true⟩
  | none =>
    let r := execStages stages fs
    ⟨Except.ok r.1, r.2, true⟩

/-- The concrete builder of the spec's scenario: component `web` with
declared dependencies `["db", "cache"]` in that order. -/
def webBuilder : BaseImageBuilder :=
  ⟨"web", ["db", "cache"], fun s => s⟩

/-- The scenario configuration: `db` and `cache` already built with image
names `.../db:1.0_` and `.../cache:2.0_`, repository `acme`. -/
def scenarioConfig : Configuration :=
  ⟨"acme", "ts",
    [("db", ⟨DistType.release, "1.0", ".../db:1.0_"⟩),
     ("cache", ⟨DistType.release, "2.0", ".../cache:2.0_"⟩)],
    "res"⟩

/-- The scenario configuration with the entry for `cache` missing. -/
def scenarioConfigMissingCache : Configuration :=
  ⟨"acme", "ts",
    [("db", ⟨DistType.release, "1.0", ".../db:1.0_"⟩)],
    "res"⟩

/-- Whether a build result is the missing-dependency failure (the Python
`KeyError` raised by the dependency lookup of line 110, the spec's
`MissingDependencyError`). -/
def errIsMissingDependency {α : Type} : Except BuildError α → Bool
  | Except.error (BuildError.missingDependency _) => true
  | _ => false

/-- An existence-check capability that reports every identifier as already
built. -/
def alwaysExists : String → Bool :=
  fun _ => true

/-- The scenario builder wired with the spec-modelled snapshot version
extractor. -/
def snapWebBuilder : BaseImageBuilder :=
  ⟨"web", ["db", "cache"], snapshotVersionFromImageName⟩

/-- A Stage whose precondition always fails. -/
def alwaysFailStage : Stage :=
  ⟨"fail", fun _ => false, fun fs => fs⟩

theorem getImageName_snd_dependencies_release (b : BaseImageBuilder)
    (ver : String) (built_config : Configuration) :
    ((getImageName b DistType.release (some ver) built_config).2).dependencies
      = sortStrings b.dependencies := by
  unfold getImageName componentTag
  cases hd : depsJoinList built_config.components (sortStrings b.dependencies) <;>
    simp [hd]

theorem getImageName_snd_dependencies_snapshot (b : BaseImageBuilder)
    (version : Option String) (built_config : Configuration) :
    ((getImageName b DistType.snapshot version built_config).2).dependencies
      = sortStrings b.dependencies := by
  unfold getImageName componentTag
  cases hd : depsJoinList built_config.components (sortStrings b.dependencies) <;>
    simp [hd]

theorem build_builder_eq (b : BaseImageBuilder) (image_exists : String → Bool)
    (dist_type : DistType) (argument : String) (built_config : Configuration)
    (force_rebuild : Bool) :
    (build b image_exists dist_type argument built_config force_rebuild).builder
      = (getImageName b dist_type
          (if dist_type = DistType.release then some argument else none)
          built_config).2 := by
  unfold build
  dsimp only
  rcases hg : getImageName b dist_type
      (if dist_type = DistType.release then some argument else none)
      built_config with ⟨res, b'⟩
  cases res
  · rfl
  · simp only
    split <;> rfl

/-- C1 counterexample: on the spec's own scenario (component `web` with
declared dependencies `["db", "cache"]`, `db` and `cache` built with image
names `.../db:1.0_` and `.../cache:2.0_`, repository `acme`, release
version `3.0`), the tag algorithm of `_get_image_name` yields
`acme/web:3.0_cache2.0__db1.0_` — each dependency contributes its name
followed by the suffix after the last colon of its image name (here
`2.0_` and `1.0_`, keeping their trailing underscores) — and not the
claimed `acme/web:3.0_cachecache2.0_dbdb1.0`. -/
theorem claim_C1_counterexample :
    (getImageName webBuilder DistType.release (some "3.0") scenarioConfig).1 =
        Except.ok "acme/web:3.0_cache2.0__db1.0_" ∧
      ("acme/web:3.0_cache2.0__db1.0_" : String)
        ≠ "acme/web:3.0_cachecache2.0_dbdb1.0" :=
  ⟨by rfl, by decide⟩

/-- C1 (amended): for the RELEASE build of component `web` with declared
dependencies `["db", "cache"]`, `db` mapped to image name `.../db:1.0_` and
`cache` to `.../cache:2.0_`, repository `acme` and version `3.0`, the
computed identifier is `acme/web:3.0_cache2.0__db1.0_`: the sorted
dependency names are each concatenated with the suffix of their image name
after its last colon and the pairs are joined with a single underscore. -/
theorem claim_C1 :
    (getImageName webBuilder DistType.release (some "3.0") scenarioConfig).1 =
      Except.ok "acme/web:3.0_cache2.0__db1.0_" := by
  rfl

/-- C2: the computed identifier is a pure function of the repository, the
component name, the component tag and the multiset of declared dependency
names: permuting the declared dependency order never changes the result,
because the names are sorted before the dependencies tag is composed. -/
theorem claim_C2 (b1 b2 : BaseImageBuilder) (dist_type : DistType)
    (version : Option String) (built_config : Configuration)
    (hname : b1.name = b2.name)
    (hperm : b1.dependencies.Perm b2.dependencies) :
    (getImageName b1 dist_type version built_config).1
      = (getImageName b2 dist_type version built_config).1 := by
  unfold getImageName
  rw [hname, sortStrings_eq_of_perm hperm]
  cases hc : componentTag dist_type version built_config
  · rfl
  · cases hd : depsJoinList built_config.components
        (sortStrings b2.dependencies) <;> simp [hd]

theorem claim_C2_witness :
    (getImageName ⟨"web", ["db", "cache"], fun s => s⟩ DistType.release
        (some "3.0") scenarioConfig).1
      = (getImageName ⟨"web", ["cache", "db"], fun s => s⟩ DistType.release
        (some "3.0") scenarioConfig).1 :=
  claim_C2 ⟨"web", ["db", "cache"], fun s => s⟩
    ⟨"web", ["cache", "db"], fun s => s⟩ DistType.release (some "3.0")
    scenarioConfig rfl (List.Perm.swap "cache" "db" [])

/-- C10: computing the identifier sorts the builder's own dependency list in
place: after any call to `build`, the builder's `dependencies` field holds
the lexicographically sorted permutation of the originally declared list
rather than the declaration order, and subsequent calls observe the sorted
list. -/
theorem claim_C10 (b : BaseImageBuilder) (image_exists : String → Bool)
    (dist_type : DistType) (argument : String) (built_config : Configuration)
    (force_rebuild : Bool) :
    (build b image_exists dist_type argument built_config
          force_rebuild).builder.dependencies
        = sortStrings b.dependencies ∧
      (sortStrings b.dependencies).Perm b.dependencies ∧
      (sortStrings b.dependencies).Sorted strLeRel := by
  refine ⟨?_, sortStrings_perm _, sortStrings_sorted _⟩
  rw [build_builder_eq]
  cases dist_type
  · simpa using getImageName_snd_dependencies_release b argument built_config
  · simpa using getImageName_snd_dependencies_snapshot b
      (if DistType.snapshot = DistType.release then some argument else none)
      built_config

/-- C3: the reuse path — returning the existing image and performing no
preparation or Docker-build action — is taken exactly when `force_rebuild`
is false, the dist type is RELEASE, and the existence check accepts the
computed identifier; any other combination rebuilds. -/
theorem claim_C3 (b : BaseImageBuilder) (image_exists : String → Bool)
    (dist_type : DistType) (argument : String) (built_config : Configuration)
    (force_rebuild : Bool) (img : String)
    (h : (getImageName b dist_type
        (if dist_type = DistType.release then some argument else none)
        built_config).1 = Except.ok img) :
    ((build b image_exists dist_type argument built_config
          force_rebuild).reused = true
        ↔ (force_rebuild = false ∧ dist_type = DistType.release
            ∧ image_exists img = true)) ∧
      ((build b image_exists dist_type argument built_config
          force_rebuild).reused = true
        ↔ (build b image_exists dist_type argument built_config
            force_rebuild).actions = []) := by
  unfold build
  dsimp only
  rcases hg : getImageName b dist_type
      (if dist_type = DistType.release then some argument else none)
      built_config with ⟨res, b'⟩
  rw [hg] at h
  simp only at h
  subst h
  simp only
  by_cases hf :
      (!force_rebuild && dist_type == DistType.release && image_exists img)
        = true
  · rw [if_pos hf]
    simp only [Bool.and_eq_true, Bool.not_eq_true', beq_iff_eq] at hf
    simp [hf, and_assoc]
  · rw [if_neg hf]
    simp only [Bool.and_eq_true, Bool.not_eq_true', beq_iff_eq, and_assoc]
      at hf
    simp [hf]

theorem claim_C3_witness :
    ((build webBuilder alwaysExists DistType.release "3.0" scenarioConfig
          false).reused = true
        ↔ (false = false ∧ DistType.release = DistType.release
            ∧ alwaysExists "acme/web:3.0_cache2.0__db1.0_" = true)) ∧
      ((build webBuilder alwaysExists DistType.release "3.0" scenarioConfig
          false).reused = true
        ↔ (build webBuilder alwaysExists DistType.release "3.0"
            scenarioConfig false).actions = []) :=
  claim_C3 webBuilder alwaysExists DistType.release "3.0" scenarioConfig
    false "acme/web:3.0_cache2.0__db1.0_" (by rfl)

/-- C4: for a SNAPSHOT build the component tag is
`snapshot_ + built_config.timestamp`, so the computed identifier does not
depend on the snapshot path argument (the path is only packed, never
tagged; the directory contents are not an input of the tag computation at
all); for a RELEASE build the component tag is the requested version
verbatim. -/
theorem claim_C4 (b : BaseImageBuilder) (image_exists : String → Bool)
    (built_config : Configuration) (force_rebuild : Bool) :
    (∀ a1 a2 : String,
        (build b image_exists DistType.snapshot a1 built_config
            force_rebuild).result.map ComponentConfig.image_name
          = (build b image_exists DistType.snapshot a2 built_config
            force_rebuild).result.map ComponentConfig.image_name) ∧
      (∀ version : Option String,
        componentTag DistType.snapshot version built_config
          = Except.ok ("snapshot_" ++ built_config.timestamp)) ∧
      ∀ ver : String,
        componentTag DistType.release (some ver) built_config
          = Except.ok ver := by
  refine ⟨?_, fun _ => rfl, fun _ => rfl⟩
  intro a1 a2
  have hne : DistType.snapshot ≠ DistType.release := by decide
  unfold build
  dsimp only
  simp only [if_neg hne]
  rcases hg : getImageName b DistType.snapshot none built_config
    with ⟨res, b'⟩
  cases res
  · rfl
  · simp

theorem depsJoinList_missing (components : List (String × ComponentConfig)) :
    ∀ (l : List String) (d : String), d ∈ l →
      components.lookup d = none →
      errIsMissingDependency (depsJoinList components l) = true
  | [], d, hm, _ => absurd hm (List.not_mem_nil d)
  | dep :: rest, d, hm, hn => by
    cases hl : components.lookup dep
    · simp [depsJoinList, hl, errIsMissingDependency]
    · rcases List.mem_cons.mp hm with he | ht
      · subst he
        rw [hl] at hn
        cases hn
      · have ih := depsJoinList_missing components rest d ht hn
        cases hr : depsJoinList components rest with
        | error e =>
          rw [hr] at ih
          cases e <;> simp_all [depsJoinList, hl, hr, errIsMissingDependency,
            Except.map]
        | ok lst =>
          rw [hr] at ih
          simp [errIsMissingDependency] at ih

/-- C5: when a declared dependency has no entry in
`built_config.components`, `build` fails with the missing-dependency error
(the `KeyError` of the lookup, the spec's `MissingDependencyError`) before
any preparation or Docker-build action runs; the failure is never silently
skipped and no identifier with a partial dependencies tag is produced. -/
theorem claim_C5 (b : BaseImageBuilder) (image_exists : String → Bool)
    (dist_type : DistType) (argument : String) (built_config : Configuration)
    (force_rebuild : Bool) (d : String)
    (hmem : d ∈ b.dependencies)
    (hmiss : built_config.components.lookup d = none) :
    errIsMissingDependency
        (build b image_exists dist_type argument built_config
          force_rebuild).result = true ∧
      (build b image_exists dist_type argument built_config
          force_rebuild).actions = [] := by
  have hd : d ∈ sortStrings b.dependencies :=
    ((sortStrings_perm b.dependencies).mem_iff).mpr hmem
  have herr := depsJoinList_missing built_config.components
    (sortStrings b.dependencies) d hd hmiss
  unfold build
  dsimp only
  cases dist_type
  case release =>
    unfold getImageName componentTag
    simp only [if_pos rfl]
    cases hr : depsJoinList built_config.components
        (sortStrings b.dependencies) with
    | error e =>
      rw [hr] at herr
      cases e <;> simp_all [errIsMissingDependency]
    | ok lst =>
      rw [hr] at herr
      simp [errIsMissingDependency] at herr
  case snapshot =>
    unfold getImageName componentTag
    have hne : DistType.snapshot ≠ DistType.release := by decide
    simp only [if_neg hne]
    cases hr : depsJoinList built_config.components
        (sortStrings b.dependencies) with
    | error e =>
      rw [hr] at herr
      cases e <;> simp_all [errIsMissingDependency]
    | ok lst =>
      rw [hr] at herr
      simp [errIsMissingDependency] at herr

theorem claim_C5_witness :
    errIsMissingDependency
        (build webBuilder alwaysExists DistType.release "3.0"
          scenarioConfigMissingCache false).result = true ∧
      (build webBuilder alwaysExists DistType.release "3.0"
          scenarioConfigMissingCache false).actions = [] :=
  claim_C5 webBuilder alwaysExists DistType.release "3.0"
    scenarioConfigMissingCache false "cache" (by decide) (by rfl)

theorem snapshotVersion_roundTrip (repo nm ts dtag : String)
    (hts_c : ':' ∉ ts.data) (hts_u : '_' ∉ ts.data)
    (hd : ':' ∉ dtag.data) :
    snapshotVersionFromImageName
        (repo ++ "/" ++ nm ++ ":" ++ ("snapshot_" ++ ts) ++ "_" ++ dtag)
      = "snapshot_" ++ ts := by
  have hsnap : ("snapshot_" : String).data
      = ("snapshot" : String).data ++ ['_'] := by decide
  have hdata : (repo ++ "/" ++ nm ++ ":" ++ ("snapshot_" ++ ts) ++ "_"
        ++ dtag).data
      = (repo.data ++ ("/" : String).data ++ nm.data)
        ++ ':' :: (("snapshot" : String).data
          ++ '_' :: (ts.data ++ '_' :: dtag.data)) := by
    simp [String.data_append, hsnap]
  have hnc : ':' ∉ (("snapshot" : String).data
      ++ '_' :: (ts.data ++ '_' :: dtag.data)) := by
    intro hmem
    simp only [List.mem_append, List.mem_cons] at hmem
    rcases hmem with h1 | h1 | h1 | h1 | h1
    · exact absurd h1 (by decide)
    · exact absurd h1 (by decide)
    · exact hts_c h1
    · exact absurd h1 (by decide)
    · exact hd h1
  unfold snapshotVersionFromImageName
  rw [hdata, afterLastChar_append _ _ _ hnc]
  rw [takeBeforeSecondChar_spec '_' ("snapshot" : String).data ts.data
    dtag.data (by decide) hts_u]
  apply String.ext
  simp [String.data_append, hsnap]

/-- C6: for every successful build the version of the returned
`ComponentConfig` is, for RELEASE, the requested version verbatim, and, for
SNAPSHOT, the version extracted back out of the just-computed identifier by
the injected extractor; with the extractor modelled from the spec as the
exact inverse of the composition, the version extracted from the returned
image name equals the component tag of step 2 of the tag algorithm. -/
theorem claim_C6 (b : BaseImageBuilder) (image_exists : String → Bool)
    (argument : String) (built_config : Configuration) (force_rebuild : Bool)
    (lst : List String)
    (hb : b.version_from_image_name = snapshotVersionFromImageName)
    (hlst : depsJoinList built_config.components (sortStrings b.dependencies)
        = Except.ok lst)
    (hts_c : ':' ∉ built_config.timestamp.data)
    (hts_u : '_' ∉ built_config.timestamp.data)
    (hcol : ':' ∉ (String.intercalate "_" lst).data) :
    (build b image_exists DistType.release argument built_config
          force_rebuild).result.map ComponentConfig.version
        = Except.ok argument ∧
      (build b image_exists DistType.snapshot argument built_config
          force_rebuild).result.map ComponentConfig.image_name
        = Except.ok (built_config.repository ++ "/" ++ b.name ++ ":"
          ++ ("snapshot_" ++ built_config.timestamp) ++ "_"
          ++ String.intercalate "_" lst) ∧
      (build b image_exists DistType.snapshot argument built_config
          force_rebuild).result.map ComponentConfig.version
        = Except.ok (snapshotVersionFromImageName
          (built_config.repository ++ "/" ++ b.name ++ ":"
            ++ ("snapshot_" ++ built_config.timestamp) ++ "_"
            ++ String.intercalate "_" lst)) ∧
      componentTag DistType.snapshot none built_config
        = Except.ok (snapshotVersionFromImageName
          (built_config.repository ++ "/" ++ b.name ++ ":"
            ++ ("snapshot_" ++ built_config.timestamp) ++ "_"
            ++ String.intercalate "_" lst)) := by
  refine ⟨?_, ?_, ?_, ?_⟩
  · unfold build getImageName componentTag
    dsimp only
    rw [hlst]
    rw [if_pos (rfl : DistType.release = DistType.release)]
    dsimp only
    split <;> rfl
  · unfold build getImageName componentTag
    dsimp only
    rw [hlst]
    dsimp only
    split <;> rfl
  · unfold build getImageName componentTag
    dsimp only
    rw [hlst]
    dsimp only
    rw [hb]
    split <;> rfl
  · rw [snapshotVersion_roundTrip built_config.repository b.name
      built_config.timestamp (String.intercalate "_" lst) hts_c hts_u hcol]
    rfl

theorem claim_C6_witness :
    (build snapWebBuilder alwaysExists DistType.release "3.0" scenarioConfig
          false).result.map ComponentConfig.version
        = Except.ok "3.0" ∧
      (build snapWebBuilder alwaysExists DistType.snapshot "3.0"
          scenarioConfig false).result.map ComponentConfig.image_name
        = Except.ok (scenarioConfig.repository ++ "/" ++ snapWebBuilder.name
          ++ ":" ++ ("snapshot_" ++ scenarioConfig.timestamp) ++ "_"
          ++ String.intercalate "_" ["cache2.0_", "db1.0_"]) ∧
      (build snapWebBuilder alwaysExists DistType.snapshot "3.0"
          scenarioConfig false).result.map ComponentConfig.version
        = Except.ok (snapshotVersionFromImageName
          (scenarioConfig.repository ++ "/" ++ snapWebBuilder.name ++ ":"
            ++ ("snapshot_" ++ scenarioConfig.timestamp) ++ "_"
            ++ String.intercalate "_" ["cache2.0_", "db1.0_"])) ∧
      componentTag DistType.snapshot none scenarioConfig
        = Except.ok (snapshotVersionFromImageName
          (scenarioConfig.repository ++ "/" ++ snapWebBuilder.name ++ ":"
            ++ ("snapshot_" ++ scenarioConfig.timestamp) ++ "_"
            ++ String.intercalate "_" ["cache2.0_", "db1.0_"])) :=
  claim_C6 snapWebBuilder alwaysExists "3.0" scenarioConfig false
    ["cache2.0_", "db1.0_"] rfl (by rfl) (by decide) (by decide) (by decide)

theorem firstFailingStage_isSome :
    ∀ (stages : List Stage) (fs : FileSystem),
      stages.any (fun s => !(s.precond fs)) = true →
      (firstFailingStage stages fs).isSome = true
  | [], fs, h => by simp at h
  | s :: rest, fs, h => by
    by_cases hp : s.precond fs = true
    · rw [List.any_cons, hp] at h
      simp only [Bool.not_true, Bool.false_or] at h
      simpa [firstFailingStage, hp] using firstFailingStage_isSome rest fs h
    · simp [firstFailingStage, hp]

/-- C7: on the rebuild path all Stage preconditions are checked before any
Stage executes: if some Stage's precondition fails, the build aborts with a
`PreconditionError` naming the first failing Stage, no Stage's `execute` is
ever called, and the scratch directory is released on this exit path as on
every other one. -/
theorem claim_C7 (stages stages2 : List Stage) (fs fs2 : FileSystem)
    (h : stages.any (fun s => !(s.precond fs)) = true) :
    (runStagedBuild stages fs).result
        = Except.error ((firstFailingStage stages fs).getD "") ∧
      (runStagedBuild stages fs).executed = [] ∧
      (runStagedBuild stages fs).scratchReleased = true ∧
      (runStagedBuild stages2 fs2).scratchReleased = true := by
  have hs := firstFailingStage_isSome stages fs h
  cases hf : firstFailingStage stages fs with
  | none =>
    rw [hf] at hs
    cases hs
  | some n =>
    refine ⟨?_, ?_, ?_, ?_⟩
    · simp [runStagedBuild, hf]
    · simp [runStagedBuild, hf]
    · simp [runStagedBuild, hf]
    · unfold runStagedBuild
      cases firstFailingStage stages2 fs2 <;> rfl

theorem claim_C7_witness :
    (runStagedBuild [alwaysFailStage] []).result
        = Except.error ((firstFailingStage [alwaysFailStage] []).getD "") ∧
      (runStagedBuild [alwaysFailStage] []).executed = [] ∧
      (runStagedBuild [alwaysFailStage] []).scratchReleased = true ∧
      (runStagedBuild [] []).scratchReleased = true :=
  claim_C7 [alwaysFailStage] [] [] [] (by rfl)

/-- C8: for a parent directory that exists, `CreateCacheStage.execute` is
idempotent: one execution ensures the `cache` subdirectory exists, a second
execution changes nothing, and every pre-existing filesystem entry (in
particular the cache directory's contents) is preserved. -/
theorem claim_C8 (parent_dir p : List String) (n : Node) (fs : FileSystem)
    (hpre : createCachePrecondition parent_dir fs = true)
    (hp : fs.lookup p = some n) :
    ((createCacheExecute parent_dir fs).lookup
        (parent_dir ++ ["cache"])).isSome = true ∧
      createCacheExecute parent_dir (createCacheExecute parent_dir fs)
        = createCacheExecute parent_dir fs ∧
      (createCacheExecute parent_dir fs).lookup p = some n := by
  by_cases hc : (fs.lookup (parent_dir ++ ["cache"])).isSome = true
  · unfold createCacheExecute
    rw [if_pos hc, if_pos hc]
    exact ⟨hc, rfl, hp⟩
  · have hnone : fs.lookup (parent_dir ++ ["cache"]) = none := by
      cases hcc : fs.lookup (parent_dir ++ ["cache"])
      · rfl
      · rw [hcc] at hc
        simp at hc
    have hne : p ≠ parent_dir ++ ["cache"] := by
      intro he
      rw [he, hnone] at hp
      cases hp
    have hbeq : (p == parent_dir ++ ["cache"]) = false :=
      beq_eq_false_iff_ne.mpr hne
    unfold createCacheExecute
    rw [if_neg hc]
    refine ⟨?_, ?_, ?_⟩
    · simp [List.lookup]
    · rw [if_pos (by simp [List.lookup])]
    · simp [List.lookup, hbeq, hp]

theorem claim_C8_witness :
    ((createCacheExecute [] [([], Node.dir)]).lookup
        ([] ++ ["cache"])).isSome = true ∧
      createCacheExecute [] (createCacheExecute [] [([], Node.dir)])
        = createCacheExecute [] [([], Node.dir)] ∧
      (createCacheExecute [] [([], Node.dir)]).lookup [] = some Node.dir :=
  claim_C8 [] [] Node.dir [([], Node.dir)] (by rfl) (by rfl)

/-- C9: the tag suffix used for a dependency is the substring of its image
name after the last colon; when the image name contains no colon at all the
whole image name is used rather than failing; and the dependency loop
appends the dependency name concatenated with exactly this suffix. -/
theorem claim_C9 (a bb : List Char) (s t : String)
    (components : List (String × ComponentConfig)) (dep : String)
    (cc : ComponentConfig)
    (hsplit : s.data = a ++ ':' :: bb)
    (hnc : ':' ∉ bb)
    (ht : ':' ∉ t.data)
    (hlook : components.lookup dep = some cc) :
    tagSuffix s = String.mk bb ∧ tagSuffix t = t ∧
      depsJoinList components [dep]
        = Except.ok [dep ++ tagSuffix cc.image_name] := by
  refine ⟨?_, ?_, ?_⟩
  · unfold tagSuffix
    rw [hsplit, afterLastChar_append _ _ _ hnc]
  · unfold tagSuffix
    rw [afterLastChar_of_not_mem _ _ ht]
  · simp [depsJoinList, hlook, Except.map]

theorem claim_C9_witness :
    tagSuffix ".../db:1.0_" = String.mk ("1.0_" : String).data ∧
      tagSuffix "nocolonhere" = "nocolonhere" ∧
      depsJoinList scenarioConfig.components ["db"]
        = Except.ok ["db" ++ tagSuffix
            (⟨DistType.release, "1.0", ".../db:1.0_"⟩
              : ComponentConfig).image_name] :=
  claim_C9 (".../db" : String).data ("1.0_" : String).data ".../db:1.0_"
    "nocolonhere" scenarioConfig.components "db"
    ⟨DistType.release, "1.0", ".../db:1.0_"⟩ (by decide) (by decide)
    (by decide) (by rfl)

end Dbd
